import Mathlib

/-!
Shallow embedding of the two scripts of the solar-house repository:
`fetch_2025.py` (the daily fetch-and-aggregate loop with its final report)
and `test_myenergi.py` (the credential probe).  Dates are represented by
their ordinal day number (days since 0000-03-01 in the proleptic Gregorian
calendar); calendar fields are recovered with the standard civil-from-days
algorithm.  Daily HTTP responses are modelled by the `DayResp` type, which
distinguishes exactly the cases the script's control flow distinguishes.
-/

namespace SolarHouse

/-- Value of a field inside one JSON reading record: either a number, or a
non-numeric value on which the Python addition `totals[field] += reading[field]`
would raise a `TypeError`. -/
inductive FieldVal where
  | num (n : Int)
  | bad
deriving DecidableEq

/-- One reading record: a JSON object, modelled as an association list from
field names to values (keys unique, as in a parsed JSON object). -/
abbrev Reading := List (String × FieldVal)

/-- Python `reading[field]` / `field in reading`: lookup in the record. -/
def findField (r : Reading) (f : String) : Option FieldVal :=
  (r.find? (fun p => p.1 == f)).map (fun p => p.2)

/-- Outcome of one day's HTTP GET, as the script's control flow sees it:
a raised transport error; a response failing `resp.ok and resp.text`
(not ok, or empty body); a body on which `resp.json()` raises; or a
successfully parsed JSON object mapping keys to lists of reading records. -/
inductive DayResp where
  | transportError
  | notOkOrEmpty
  | malformed
  | parsed (data : List (String × List Reading))
deriving DecidableEq

/-- Python `key in data` / `data[key]` on the parsed object. -/
def lookupKey (data : List (String × List Reading)) (k : String) :
    Option (List Reading) :=
  (data.find? (fun p => p.1 == k)).map (fun p => p.2)

/-- The running totals dict, as a map from field name to accumulated sum.
Only the six keys of `totalsFields` are ever updated. -/
abbrev Totals := String → Int

def fieldImp : String := "imp"

def fieldExp : String := "exp"

def fieldGep : String := "gep"

def fieldGen : String := "gen"

def fieldH1d : String := "h1d"

def fieldH1b : String := "h1b"

/-- The keys of the `totals` dict, in insertion order: this is the order in
which `for field in totals` iterates. -/
def totalsFields : List String := [fieldImp, fieldExp, fieldGep, fieldGen, fieldH1d, fieldH1b]

/-- Initial totals dict: every field starts at zero. -/
def initTotals : Totals := fun _ => 0

/-- Functional update of the totals dict at one key. -/
def updateT (t : Totals) (f : String) (v : Int) : Totals :=
  fun g => if g = f then v else t g

/-- The inner loop `for field in totals: if field in reading:
totals[field] += reading[field]` over a given list of field names.
A non-numeric value raises: the result is `.error` carrying the totals as
mutated so far (in-place mutation is not rolled back by the exception). -/
def addFields (r : Reading) : List String → Totals → Except Totals Totals
  | [], t => .ok t
  | f :: fs, t =>
    match findField r f with
    | none => addFields r fs t
    | some (.num n) => addFields r fs (updateT t f (t f + n))
    | some .bad => .error t

/-- The loop `for reading in data[key]`, threading the totals through
`addFields`; an exception aborts the remaining readings. -/
def addReadings : Totals → List Reading → Except Totals Totals
  | t, [] => .ok t
  | t, r :: rs =>
    match addFields r totalsFields t with
    | .ok t2 => addReadings t2 rs
    | .error t2 => .error t2

/-- Console output events of the aggregation loop: the `Error {date}: {e}`
diagnostic from the except branch, and the monthly `{Month Year}... (n days)`
progress line.  Dates are ordinals; the progress line carries month number,
year and the cumulative processed-day count. -/
inductive OutEvent where
  | errorLine (d : Nat)
  | progressLine (month year days : Nat)
deriving DecidableEq

/-- State of the aggregation run: the totals dict, the processed-day
counter, and the console output so far (in order). -/
structure RunState where
  totals : Totals
  daysProcessed : Nat
  output : List OutEvent

/-- Calendar triple (year, month, day) from an ordinal day number
(days since 0000-03-01), by the standard civil-from-days algorithm. -/
def civilFromOrd (z : Nat) : Nat × Nat × Nat :=
  let era := z / 146097
  let doe := z % 146097
  let yoe := (doe - doe / 1460 + doe / 36524 - doe / 146096) / 365
  let y := yoe + era * 400
  let doy := doe - (365 * yoe + yoe / 4 - yoe / 100)
  let mp := (5 * doy + 2) / 153
  let d := doy - (153 * mp + 2) / 5 + 1
  let m := if mp < 10 then mp + 3 else mp - 9
  (if m ≤ 2 then y + 1 else y, m, d)

/-- Ordinal day number of a calendar date (inverse of `civilFromOrd` on
valid dates with year at least 1). -/
def ordOfDate (y m d : Nat) : Nat :=
  let y2 := if m ≤ 2 then y - 1 else y
  let era := y2 / 400
  let yoe := y2 % 400
  let mp := if 2 < m then m - 3 else m + 9
  let doy := (153 * mp + 2) / 5 + d - 1
  let doe := yoe * 365 + yoe / 4 - yoe / 100 + doy
  era * 146097 + doe

def yearOf (z : Nat) : Nat := (civilFromOrd z).1

def monthOf (z : Nat) : Nat := (civilFromOrd z).2.1

/-- Python `current.day`: day of month of an ordinal date. -/
def dayOfMonth (z : Nat) : Nat := (civilFromOrd z).2.2

/-- The body of the `try`/`except` for one date: given the day's response,
the current totals and processed-day count, return the new totals, the new
count and the console events the body prints.  Mirrors lines 28-40 of
`fetch_2025.py`: the counter is incremented whenever the response is ok,
non-empty and parses (whether or not the per-device key is present), and
skipped when any exception fires, including one raised mid-accumulation. -/
def tryDay (key : String) (d : Nat) (r : DayResp) (t : Totals) (dp : Nat) :
    Totals × Nat × List OutEvent :=
  match r with
  | .transportError => (t, dp, [.errorLine d])
  | .notOkOrEmpty => (t, dp, [])
  | .malformed => (t, dp, [.errorLine d])
  | .parsed data =>
    match lookupKey data key with
    | none => (t, dp + 1, [])
    | some rs =>
      match addReadings t rs with
      | .ok t2 => (t2, dp + 1, [])
      | .error t2 => (t2, dp, [.errorLine d])

/-- One full iteration of the while loop for date `d`: the try/except body
followed by the first-of-month progress line (printed after the body, so it
shows the count including this date's own outcome). -/
def stepDay (key : String) (resp : Nat → DayResp) (d : Nat) (st : RunState) : RunState :=
  let res := tryDay key d (resp d) st.totals st.daysProcessed
  let evs :=
    if dayOfMonth d = 1 then
      res.2.2 ++ [.progressLine (monthOf d) (yearOf d) res.2.1]
    else res.2.2
  { totals := res.1, daysProcessed := res.2.1, output := st.output ++ evs }

/-- Structural helper for the while loop: iterate `stepDay` for `n`
consecutive dates starting at `cur`. -/
def runLoop (key : String) (resp : Nat → DayResp) : Nat → Nat → RunState → RunState
  | 0, _, st => st
  | n + 1, cur, st => runLoop key resp n (cur + 1) (stepDay key resp cur st)

/-- The `while current <= end` loop, from date `cur` to date `e` inclusive
(the loop runs once per date of the inclusive range; see `runFrom_unfold`
for the while-loop unfolding equation). -/
def runFrom (key : String) (resp : Nat → DayResp) (cur e : Nat) (st : RunState) : RunState :=
  runLoop key resp (e + 1 - cur) cur st

/-- Initial run state: all totals zero, zero processed days, no output. -/
def initState : RunState := ⟨initTotals, 0, []⟩

/-- The whole aggregation run over the inclusive date range, parameterised
(as in the spec's `run` operation) by the per-device key (letter prefix
plus device id), the per-date responses, and the start and end dates. -/
def run (key : String) (resp : Nat → DayResp) (s e : Nat) : RunState :=
  runFrom key resp s e initState

/-- The final report (lines 48-53): processed-day count and the four kWh
figures.  Each figure is the watt-second total divided by 3,600,000 and
formatted to one decimal place; consumption is computed in watt-seconds as
imported + generated - exported before the conversion. -/
structure Report where
  days : Nat
  importKWh : ℚ
  exportKWh : ℚ
  genKWh : ℚ
  consKWh : ℚ
deriving DecidableEq

/-- One-decimal-place formatting of a value: round to the nearest tenth. -/
def fmt1 (q : ℚ) : ℚ := (round (q * 10) : ℚ) / 10

def report (st : RunState) : Report :=
  { days := st.daysProcessed
    importKWh := fmt1 ((st.totals fieldImp : ℚ) / 3600000)
    exportKWh := fmt1 ((st.totals fieldExp : ℚ) / 3600000)
    genKWh := fmt1 ((st.totals fieldGep : ℚ) / 3600000)
    consKWh := fmt1 (((st.totals fieldImp + st.totals fieldGep - st.totals fieldExp : Int) : ℚ) / 3600000) }

/-! Embedding of `test_myenergi.py`, the credential probe. -/

/-- An HTTP response as the probe sees it: the response headers
(case-insensitive lookup, as in the requests library) and the parsed body,
kept opaque as a string. -/
structure ProbeResp where
  headers : List (String × String)
  body : String
deriving DecidableEq

/-- Final observable outcome of the probe: the configuration-error path
(prints the instruction and exits with status 1), or the printed parsed
response of the last request. -/
inductive ProbeOutcome where
  | configError
  | printed (body : String)
deriving DecidableEq

/-- Python truthiness test used by `if not SERIAL or not API_KEY`: an
environment variable is falsy when it is unset or the empty string. -/
def falsy : Option String → Bool
  | none => true
  | some s => s == ""

/-- ASCII lowercase of a character (header names are ASCII). -/
def lowerChar (c : Char) : Char :=
  if 65 ≤ c.toNat ∧ c.toNat ≤ 90 then Char.ofNat (c.toNat + 32) else c

/-- ASCII lowercase of a string. -/
def lowerStr (s : String) : String := String.mk (s.data.map lowerChar)

/-- Case-insensitive header lookup, as on a requests case-insensitive
header dict. -/
def lookupHeader (hs : List (String × String)) (nm : String) : Option String :=
  (hs.find? (fun p => lowerStr p.1 == lowerStr nm)).map (fun p => p.2)

def serialVar : String := "MYENERGI_SERIAL"

def apiKeyVar : String := "MYENERGI_API_KEY"

def asnHeader : String := "x_myenergi-asn"

def discoveryUrl : String := "https://director.myenergi.net/cgi-jstatus-*"

/-- URL of the re-targeted status request against an assigned server. -/
def statusUrl (server : String) : String :=
  "https://" ++ server ++ "/cgi-jstatus-*"

/-- The whole probe script: reads the two environment variables, exits on
the configuration-error path if either is falsy, otherwise issues the
discovery request and, when the server-assignment header is present,
re-issues the status request against the named server; prints the body of
the last response.  Also returns the list of URLs requested, in order. -/
def probeRun (env : String → Option String) (get : String → ProbeResp) :
    ProbeOutcome × List String :=
  if falsy (env serialVar) || falsy (env apiKeyVar) then
    (.configError, [])
  else
    let r1 := get discoveryUrl
    match lookupHeader r1.headers asnHeader with
    | some server => (.printed (get (statusUrl server)).body, [discoveryUrl, statusUrl server])
    | none => (.printed r1.body, [discoveryUrl])

/-! Specification-side definitions: the quantities the spec's sentences
talk about, written from the spec's words so the theorems can compare the
code's behaviour against them. -/

/-- The inclusive list of ordinal dates from `s` to `e` (empty when `e < s`). -/
def rangeDates (s e : Nat) : List Nat := List.range' s (e + 1 - s)

/-- Value a reading record contributes for one field: the number stored
there, or zero when the field is missing (a non-numeric value contributes
no number; the day it occurs on errors out instead). -/
def readingVal (r : Reading) (g : String) : Int :=
  match findField r g with
  | some (.num n) => n
  | _ => 0

/-- Sum of one field over a list of reading records. -/
def sumReadings (g : String) (rs : List Reading) : Int :=
  (rs.map (fun r => readingVal r g)).sum

/-- True when the addition loop over this record raises no exception:
no tracked field of the record holds a non-numeric value. -/
def fieldOk (r : Reading) (f : String) : Bool :=
  match findField r f with
  | some .bad => false
  | _ => true

def readingOk (r : Reading) : Bool := totalsFields.all (fieldOk r)

/-- True exactly when the day's iteration increments the processed-day
counter: the response is ok, non-empty and parses, and the accumulation
over its readings (if the key is present) raises no exception. -/
def dayProcessed (key : String) : DayResp → Bool
  | .parsed data =>
    match lookupKey data key with
    | none => true
    | some rs => rs.all readingOk
  | _ => false

/-- Written from the spec's words for the processed-day count: the
per-device key was found in a successfully parsed, non-empty response. -/
def keyFound (key : String) : DayResp → Bool
  | .parsed data => (lookupKey data key).isSome
  | _ => false

/-- True when the day's readings under the key are free of non-numeric
values, i.e. the day's accumulation is exception-free. -/
def respReadingsOk (key : String) : DayResp → Bool
  | .parsed data =>
    match lookupKey data key with
    | some rs => rs.all readingOk
    | none => true
  | _ => true

/-- The amount a day's response contributes to one field of the totals:
the sum of that field over the readings under the per-device key of a
successfully parsed response, and zero otherwise. -/
def dayContrib (key : String) (g : String) : DayResp → Int
  | .parsed data =>
    match lookupKey data key with
    | some rs => sumReadings g rs
    | none => 0
  | _ => 0

/-- Recogniser for progress lines among output events. -/
def isProgress : OutEvent → Bool
  | .progressLine _ _ _ => true
  | .errorLine _ => false

/-- Helper: the aggregation loop as a left fold over an explicit list of
dates (related to `runFrom` below). -/
def foldDays (key : String) (resp : Nat → DayResp) (l : List Nat) (st : RunState) : RunState :=
  l.foldl (fun s d => stepDay key resp d s) st

/-- Success recogniser for the exception-carrying accumulation functions. -/
def exOk : Except Totals Totals → Bool
  | .ok _ => true
  | .error _ => false

/-- The sequence of progress lines a run over the given dates emits,
starting from the given state (used to characterise the monthly output). -/
def expProg (key : String) (resp : Nat → DayResp) : List Nat → RunState → List OutEvent
  | [], _ => []
  | d :: l, st =>
    (if dayOfMonth d = 1 then
        [.progressLine (monthOf d) (yearOf d) (stepDay key resp d st).daysProcessed]
      else []) ++ expProg key resp l (stepDay key resp d st)

/-! Concrete inputs used by the closed witness and counterexample theorems. -/

/-- The per-device key of the script: letter prefix `U` plus the device id. -/
def keyU : String := "U21962448"

/-- A response that is ok, non-empty and parses, but lacks the per-device
key (an empty JSON object). -/
def respNoKey : Nat → DayResp := fun _ => DayResp.parsed []

def readA : Reading := [(fieldImp, FieldVal.num 5), (fieldGep, FieldVal.num 2)]

def readB : Reading := [(fieldImp, FieldVal.num 7), (fieldExp, FieldVal.num 3)]

/-- Two readings on even dates, a transport error on odd dates. -/
def respW2 : Nat → DayResp := fun d =>
  if d % 2 = 0 then DayResp.parsed [(keyU, [readA, readB])] else DayResp.transportError

/-- The mocked reading of the spec's report test. -/
def c3read : Reading :=
  [(fieldImp, FieldVal.num 3600000), (fieldExp, FieldVal.num 0), (fieldGep, FieldVal.num 0)]

def c3resp : Nat → DayResp := fun _ => DayResp.parsed [(keyU, [c3read])]

/-- Ordinal of 2025-01-01. -/
def d20250101 : Nat := ordOfDate 2025 1 1

/-- One reading every day, except a transport error on date 11. -/
def respW4 : Nat → DayResp := fun d =>
  if d = 11 then DayResp.transportError else DayResp.parsed [(keyU, [readA])]

/-- The same responses with date 11 replaced by a silent no-data day. -/
def respW4skip : Nat → DayResp := fun d =>
  if d = 11 then DayResp.notOkOrEmpty else respW4 d

/-- A reading whose second tracked field holds a non-numeric value: the
addition loop adds 7 to the imported-energy total and then raises. -/
def badRead : Reading := [(fieldImp, FieldVal.num 7), (fieldExp, FieldVal.bad)]

def respBad : Nat → DayResp := fun _ => DayResp.parsed [(keyU, [badRead])]

/-- A reading adding 9 to the generation total before raising on a
non-numeric auxiliary field. -/
def badRead2 : Reading := [(fieldGep, FieldVal.num 9), (fieldH1d, FieldVal.bad)]

def respBad2 : Nat → DayResp := fun _ => DayResp.parsed [(keyU, [badRead2])]

def emptyStr : String := ""

def serialVal : String := "12345678"

def secretVal : String := "apikey-abc"

/-- Environment with both probe variables present and non-empty. -/
def envBoth : String → Option String := fun v =>
  if v = serialVar then some serialVal
  else if v = apiKeyVar then some secretVal
  else none

/-- Environment where the serial variable is present but empty. -/
def envEmptySerial : String → Option String := fun v =>
  if v = serialVar then some emptyStr
  else if v = apiKeyVar then some secretVal
  else none

/-- Environment with the API-key variable unset. -/
def envNoKey : String → Option String := fun v =>
  if v = serialVar then some serialVal else none

def serverS5 : String := "s5.myenergi.net"

def bodyDirector : String := "director-status"

def bodyS5 : String := "s5-status"

/-- A network where the discovery endpoint assigns server `serverS5`, whose
status body differs from the director's. -/
def getW : String → ProbeResp := fun u =>
  if u = discoveryUrl then ⟨[(asnHeader, serverS5)], bodyDirector⟩
  else if u = statusUrl serverS5 then ⟨[], bodyS5⟩
  else ⟨[], emptyStr⟩

/-- Responses that raise a transport error on every date. -/
def respErrAll : Nat → DayResp := fun _ => DayResp.transportError

/-- The same responses with date `d` replaced by a silent no-data day
(used to express that a date contributes nothing to a run). -/
def maskDay (resp : Nat → DayResp) (d : Nat) : Nat → DayResp :=
  fun x => if x = d then DayResp.notOkOrEmpty else resp x

/-- Bool form of the first-of-month test `current.day == 1`. -/
def isFirstOfMonth (d : Nat) : Bool := dayOfMonth d == 1

/-! ### Basic lemmas about the accumulation primitives -/

theorem totalsFields_nodup : totalsFields.Nodup := by decide

theorem addFields_exOk (r : Reading) :
    ∀ (fs : List String) (t : Totals), exOk (addFields r fs t) = fs.all (fieldOk r)
  | [], _ => rfl
  | f :: fs, t => by
    simp only [addFields, List.all_cons]
    cases h : findField r f with
    | none =>
      simp [fieldOk, h, addFields_exOk r fs t]
    | some v =>
      cases v with
      | num n => simp [fieldOk, h, addFields_exOk r fs (updateT t f (t f + n))]
      | bad => simp [fieldOk, h, exOk]

theorem addFields_ok_val (r : Reading) (g : String) :
    ∀ (fs : List String) (t t2 : Totals), addFields r fs t = .ok t2 → fs.Nodup →
      (g ∈ fs → t2 g = t g + readingVal r g) ∧ (g ∉ fs → t2 g = t g) := by
  intro fs
  induction fs with
  | nil =>
    intro t t2 h _
    simp only [addFields, Except.ok.injEq] at h
    subst h
    simp
  | cons f fs ih =>
    intro t t2 h hnd
    rw [List.nodup_cons] at hnd
    obtain ⟨hf, hnd⟩ := hnd
    simp only [addFields] at h
    cases hf2 : findField r f with
    | none =>
      rw [hf2] at h
      have hv := ih t t2 h hnd
      refine ⟨fun hg => ?_, fun hg => ?_⟩
      · rcases List.mem_cons.mp hg with hEq | hg2
        · subst hEq
          rw [hv.2 hf]
          simp [readingVal, hf2]
        · exact hv.1 hg2
      · exact hv.2 fun hx => hg (List.mem_cons_of_mem f hx)
    | some v =>
      cases v with
      | num n =>
        rw [hf2] at h
        have hv := ih (updateT t f (t f + n)) t2 h hnd
        refine ⟨fun hg => ?_, fun hg => ?_⟩
        · rcases List.mem_cons.mp hg with hEq | hg2
          · subst hEq
            rw [hv.2 hf]
            simp [updateT, readingVal, hf2]
          · have hgf : g ≠ f := fun hEq => hf (hEq ▸ hg2)
            rw [hv.1 hg2]
            simp [updateT, hgf]
        · have hgf : g ≠ f := fun hEq => hg (hEq ▸ List.mem_cons_self f fs)
          rw [hv.2 fun hx => hg (List.mem_cons_of_mem f hx)]
          simp [updateT, hgf]
      | bad =>
        rw [hf2] at h
        cases h

theorem addReadings_exOk : ∀ (rs : List Reading) (t : Totals),
    exOk (addReadings t rs) = rs.all readingOk
  | [], _ => rfl
  | r :: rs, t => by
    simp only [addReadings, List.all_cons]
    cases h : addFields r totalsFields t with
    | ok t2 =>
      have h2 := addFields_exOk r totalsFields t
      rw [h] at h2
      simp only [exOk] at h2
      rw [readingOk, ← h2, Bool.true_and]
      exact addReadings_exOk rs t2
    | error t2 =>
      have h2 := addFields_exOk r totalsFields t
      rw [h] at h2
      simp only [exOk] at h2
      rw [readingOk, ← h2]
      simp [exOk]

theorem addReadings_ok_val (g : String) :
    ∀ (rs : List Reading) (t t2 : Totals), addReadings t rs = .ok t2 →
      (g ∈ totalsFields → t2 g = t g + sumReadings g rs) ∧
      (g ∉ totalsFields → t2 g = t g) := by
  intro rs
  induction rs with
  | nil =>
    intro t t2 h
    simp only [addReadings, Except.ok.injEq] at h
    subst h
    simp [sumReadings]
  | cons r rs ih =>
    intro t t2 h
    simp only [addReadings] at h
    cases h1 : addFields r totalsFields t with
    | ok t1 =>
      rw [h1] at h
      have hv := ih t1 t2 h
      have hf := addFields_ok_val r g totalsFields t t1 h1 totalsFields_nodup
      refine ⟨fun hg => ?_, fun hg => ?_⟩
      · rw [hv.1 hg, hf.1 hg]
        simp [sumReadings]
        ring
      · rw [hv.2 hg, hf.2 hg]
    | error t1 =>
      rw [h1] at h
      cases h

/-! ### Lemmas about one loop iteration -/

theorem stepDay_daysProcessed (key : String) (resp : Nat → DayResp) (d : Nat) (st : RunState) :
    (stepDay key resp d st).daysProcessed =
      st.daysProcessed + (if dayProcessed key (resp d) = true then 1 else 0) := by
  simp only [stepDay]
  cases hr : resp d with
  | transportError => simp [tryDay, dayProcessed]
  | notOkOrEmpty => simp [tryDay, dayProcessed]
  | malformed => simp [tryDay, dayProcessed]
  | parsed data =>
    cases hk : lookupKey data key with
    | none => simp [tryDay, dayProcessed, hk]
    | some rs =>
      have hok := addReadings_exOk rs st.totals
      cases h : addReadings st.totals rs with
      | ok t2 =>
        rw [h] at hok
        simp only [exOk] at hok
        simp [tryDay, dayProcessed, hk, h, ← hok]
      | error t2 =>
        rw [h] at hok
        simp only [exOk] at hok
        simp [tryDay, dayProcessed, hk, h, ← hok]

theorem stepDay_totals_good (key : String) (resp : Nat → DayResp) (d : Nat) (st : RunState)
    (h : respReadingsOk key (resp d) = true) (g : String) (hg : g ∈ totalsFields) :
    (stepDay key resp d st).totals g = st.totals g + dayContrib key g (resp d) := by
  simp only [stepDay]
  cases hr : resp d with
  | transportError => simp [tryDay, dayContrib]
  | notOkOrEmpty => simp [tryDay, dayContrib]
  | malformed => simp [tryDay, dayContrib]
  | parsed data =>
    cases hk : lookupKey data key with
    | none => simp [tryDay, dayContrib, hk]
    | some rs =>
      rw [hr] at h
      simp only [respReadingsOk, hk] at h
      have hok := addReadings_exOk rs st.totals
      rw [h] at hok
      cases h2 : addReadings st.totals rs with
      | ok t2 =>
        have hv := addReadings_ok_val g rs st.totals t2 h2
        simp [tryDay, dayContrib, hk, h2, hv.1 hg]
      | error t2 =>
        rw [h2] at hok
        simp [exOk] at hok

theorem stepDay_totals_fail (key : String) (resp : Nat → DayResp) (d : Nat) (st : RunState)
    (h : resp d = DayResp.transportError ∨ resp d = DayResp.malformed ∨
      resp d = DayResp.notOkOrEmpty) (g : String) :
    (stepDay key resp d st).totals g = st.totals g := by
  rcases h with h | h | h <;> simp [stepDay, tryDay, h]

theorem stepDay_dp_fail (key : String) (resp : Nat → DayResp) (d : Nat) (st : RunState)
    (h : resp d = DayResp.transportError ∨ resp d = DayResp.malformed ∨
      resp d = DayResp.notOkOrEmpty) :
    (stepDay key resp d st).daysProcessed = st.daysProcessed := by
  rcases h with h | h | h <;> simp [stepDay, tryDay, h]

theorem stepDay_error_mem (key : String) (resp : Nat → DayResp) (d : Nat) (st : RunState)
    (h : resp d = DayResp.transportError ∨ resp d = DayResp.malformed) :
    OutEvent.errorLine d ∈ (stepDay key resp d st).output := by
  rcases h with h | h <;>
    · simp only [stepDay, tryDay, h]
      by_cases h1 : dayOfMonth d = 1 <;> simp [h1]

theorem stepDay_output_append (key : String) (resp : Nat → DayResp) (d : Nat) (st : RunState) :
    ∃ evs, (stepDay key resp d st).output = st.output ++ evs :=
  ⟨_, rfl⟩

theorem stepDay_state_ext (key : String) (resp : Nat → DayResp) (d : Nat) (st st' : RunState)
    (ht : st.totals = st'.totals) (hd : st.daysProcessed = st'.daysProcessed) :
    (stepDay key resp d st).totals = (stepDay key resp d st').totals ∧
      (stepDay key resp d st).daysProcessed = (stepDay key resp d st').daysProcessed := by
  simp [stepDay, ht, hd]

theorem stepDay_congr (key : String) (resp resp' : Nat → DayResp) (d : Nat) (st : RunState)
    (h : resp d = resp' d) : stepDay key resp d st = stepDay key resp' d st := by
  simp [stepDay, h]

/-! ### The loop as a fold over the date range -/

theorem foldDays_nil (key : String) (resp : Nat → DayResp) (st : RunState) :
    foldDays key resp [] st = st := rfl

theorem foldDays_cons (key : String) (resp : Nat → DayResp) (d : Nat) (l : List Nat)
    (st : RunState) :
    foldDays key resp (d :: l) st = foldDays key resp l (stepDay key resp d st) := rfl

theorem foldDays_append (key : String) (resp : Nat → DayResp) (l1 l2 : List Nat)
    (st : RunState) :
    foldDays key resp (l1 ++ l2) st = foldDays key resp l2 (foldDays key resp l1 st) := by
  unfold foldDays
  rw [List.foldl_append]

theorem runLoop_eq_foldDays (key : String) (resp : Nat → DayResp) :
    ∀ (n cur : Nat) (st : RunState),
      runLoop key resp n cur st = foldDays key resp (List.range' cur n) st
  | 0, _, _ => rfl
  | n + 1, cur, st => by
    rw [List.range'_succ, foldDays_cons]
    exact runLoop_eq_foldDays key resp n (cur + 1) (stepDay key resp cur st)

theorem runFrom_eq_foldDays (key : String) (resp : Nat → DayResp) (cur e : Nat)
    (st : RunState) :
    runFrom key resp cur e st = foldDays key resp (rangeDates cur e) st :=
  runLoop_eq_foldDays key resp (e + 1 - cur) cur st

theorem runFrom_unfold (key : String) (resp : Nat → DayResp) (cur e : Nat) (st : RunState) :
    runFrom key resp cur e st =
      if cur ≤ e then runFrom key resp (cur + 1) e (stepDay key resp cur st) else st := by
  by_cases h : cur ≤ e
  · rw [if_pos h]
    show runLoop key resp (e + 1 - cur) cur st = runLoop key resp (e + 1 - (cur + 1)) (cur + 1) _
    rw [show e + 1 - cur = (e + 1 - (cur + 1)) + 1 by omega]
    rfl
  · rw [if_neg h]
    show runLoop key resp (e + 1 - cur) cur st = st
    rw [show e + 1 - cur = 0 by omega]
    rfl

theorem runFrom_empty (key : String) (resp : Nat → DayResp) (cur e : Nat) (st : RunState)
    (h : e < cur) : runFrom key resp cur e st = st := by
  show runLoop key resp (e + 1 - cur) cur st = st
  rw [show e + 1 - cur = 0 by omega]
  rfl

theorem runFrom_self (key : String) (resp : Nat → DayResp) (cur : Nat) (st : RunState) :
    runFrom key resp cur cur st = stepDay key resp cur st := by
  show runLoop key resp (cur + 1 - cur) cur st = _
  rw [show cur + 1 - cur = 1 by omega]
  rfl

theorem runFrom_step (key : String) (resp : Nat → DayResp) (cur d : Nat) (st : RunState)
    (h : cur ≤ d) :
    runFrom key resp cur d st = runFrom key resp (cur + 1) d (stepDay key resp cur st) := by
  rw [runFrom_unfold, if_pos h]

theorem rangeDates_cons (cur e : Nat) (h : cur ≤ e) :
    rangeDates cur e = cur :: rangeDates (cur + 1) e := by
  unfold rangeDates
  rw [show e + 1 - cur = (e + 1 - (cur + 1)) + 1 by omega, List.range'_succ]

theorem rangeDates_empty (cur e : Nat) (h : e < cur) : rangeDates cur e = [] := by
  unfold rangeDates
  rw [show e + 1 - cur = 0 by omega, List.range'_zero]

theorem mem_rangeDates (d s e : Nat) : d ∈ rangeDates s e ↔ s ≤ d ∧ d ≤ e := by
  unfold rangeDates
  rw [List.mem_range']
  constructor
  · rintro ⟨i, hi, rfl⟩
    omega
  · rintro ⟨h1, h2⟩
    exact ⟨d - s, by omega, by omega⟩

theorem rangeDates_split (s d e : Nat) (h1 : s ≤ d) (h2 : d ≤ e) :
    rangeDates s e = List.range' s (d - s) ++ rangeDates d e := by
  unfold rangeDates
  have h3 := List.range'_append_1 s (d - s) (e + 1 - d)
  rw [show s + (d - s) = d by omega] at h3
  rw [show e + 1 - s = e + 1 - d + (d - s) by omega, ← h3]

/-! ### Aggregate behaviour of a run over a list of dates -/

theorem foldDays_daysProcessed (key : String) (resp : Nat → DayResp) :
    ∀ (l : List Nat) (st : RunState),
      (foldDays key resp l st).daysProcessed =
        st.daysProcessed + (l.filter (fun d => dayProcessed key (resp d))).length
  | [], st => by simp [foldDays]
  | d :: l, st => by
    rw [foldDays_cons, foldDays_daysProcessed key resp l, stepDay_daysProcessed]
    by_cases h : dayProcessed key (resp d) = true
    · simp [List.filter_cons, h]
      omega
    · simp [List.filter_cons, h]

theorem foldDays_totals_good (key : String) (resp : Nat → DayResp) (g : String)
    (hg : g ∈ totalsFields) :
    ∀ (l : List Nat) (st : RunState), (∀ d ∈ l, respReadingsOk key (resp d) = true) →
      (foldDays key resp l st).totals g =
        st.totals g + (l.map (fun d => dayContrib key g (resp d))).sum
  | [], st, _ => by simp [foldDays]
  | d :: l, st, hgood => by
    rw [foldDays_cons,
      foldDays_totals_good key resp g hg l _ fun x hx => hgood x (List.mem_cons_of_mem d hx),
      stepDay_totals_good key resp d st (hgood d (List.mem_cons_self d l)) g hg]
    simp
    ring

theorem foldDays_output_extends (key : String) (resp : Nat → DayResp) :
    ∀ (l : List Nat) (st : RunState), ∃ evs, (foldDays key resp l st).output = st.output ++ evs
  | [], st => ⟨[], by simp [foldDays]⟩
  | d :: l, st => by
    rw [foldDays_cons]
    obtain ⟨evs1, h1⟩ := stepDay_output_append key resp d st
    obtain ⟨evs2, h2⟩ := foldDays_output_extends key resp l (stepDay key resp d st)
    exact ⟨evs1 ++ evs2, by rw [h2, h1, List.append_assoc]⟩

theorem foldDays_mem_output (key : String) (resp : Nat → DayResp) (l : List Nat)
    (st : RunState) (ev : OutEvent) (h : ev ∈ st.output) :
    ev ∈ (foldDays key resp l st).output := by
  obtain ⟨evs, h2⟩ := foldDays_output_extends key resp l st
  rw [h2]
  exact List.mem_append_left _ h

theorem foldDays_state_ext (key : String) (resp : Nat → DayResp) :
    ∀ (l : List Nat) (st st' : RunState), st.totals = st'.totals →
      st.daysProcessed = st'.daysProcessed →
      (foldDays key resp l st).totals = (foldDays key resp l st').totals ∧
        (foldDays key resp l st).daysProcessed = (foldDays key resp l st').daysProcessed
  | [], st, st', ht, hd => ⟨ht, hd⟩
  | d :: l, st, st', ht, hd => by
    rw [foldDays_cons, foldDays_cons]
    have h := stepDay_state_ext key resp d st st' ht hd
    exact foldDays_state_ext key resp l _ _ h.1 h.2

theorem foldDays_congr (key : String) :
    ∀ (l : List Nat) (resp resp' : Nat → DayResp) (st : RunState),
      (∀ d ∈ l, resp d = resp' d) → foldDays key resp l st = foldDays key resp' l st
  | [], _, _, _, _ => rfl
  | d :: l, resp, resp', st, h => by
    rw [foldDays_cons, foldDays_cons,
      stepDay_congr key resp resp' d st (h d (List.mem_cons_self d l))]
    exact foldDays_congr key l resp resp' _ fun x hx => h x (List.mem_cons_of_mem d hx)

/-! ### Progress-line output -/

theorem tryDay_no_progress (key : String) (d : Nat) (r : DayResp) (t : Totals) (dp : Nat) :
    ((tryDay key d r t dp).2.2).filter isProgress = [] := by
  cases r with
  | transportError => rfl
  | notOkOrEmpty => rfl
  | malformed => rfl
  | parsed data =>
    cases hk : lookupKey data key with
    | none => simp [tryDay, hk]
    | some rs =>
      cases h : addReadings t rs with
      | ok t2 => simp [tryDay, hk, h]
      | error t2 => simp [tryDay, hk, h, isProgress]

theorem stepDay_output_filter (key : String) (resp : Nat → DayResp) (d : Nat) (st : RunState) :
    ((stepDay key resp d st).output).filter isProgress =
      st.output.filter isProgress ++
        (if dayOfMonth d = 1 then
          [OutEvent.progressLine (monthOf d) (yearOf d) (stepDay key resp d st).daysProcessed]
         else []) := by
  by_cases h : dayOfMonth d = 1 <;>
    simp [stepDay, h, List.filter_append, tryDay_no_progress, isProgress]

theorem foldDays_output_filter (key : String) (resp : Nat → DayResp) :
    ∀ (l : List Nat) (st : RunState),
      ((foldDays key resp l st).output).filter isProgress =
        st.output.filter isProgress ++ expProg key resp l st
  | [], st => by simp [foldDays, expProg]
  | d :: l, st => by
    rw [foldDays_cons, foldDays_output_filter key resp l _]
    show _ = _ ++ expProg key resp (d :: l) st
    rw [expProg, stepDay_output_filter, List.append_assoc]

theorem expProg_eq_map (key : String) (resp : Nat → DayResp) :
    ∀ (n cur : Nat) (st : RunState),
      expProg key resp (List.range' cur n) st =
        ((List.range' cur n).filter isFirstOfMonth).map
          (fun d => OutEvent.progressLine (monthOf d) (yearOf d)
            ((runFrom key resp cur d st).daysProcessed))
  | 0, cur, st => by simp [expProg]
  | n + 1, cur, st => by
    rw [List.range'_succ]
    show expProg key resp (cur :: List.range' (cur + 1) n) st = _
    rw [expProg, expProg_eq_map key resp n (cur + 1) (stepDay key resp cur st)]
    rw [List.filter_cons]
    have hself : (runFrom key resp cur cur st).daysProcessed =
        (stepDay key resp cur st).daysProcessed := by rw [runFrom_self]
    have hmap : ∀ x ∈ (List.range' (cur + 1) n).filter isFirstOfMonth,
        OutEvent.progressLine (monthOf x) (yearOf x)
            ((runFrom key resp (cur + 1) x (stepDay key resp cur st)).daysProcessed) =
          OutEvent.progressLine (monthOf x) (yearOf x)
            ((runFrom key resp cur x st).daysProcessed) := by
      intro x hx
      have hx2 := List.mem_range'.mp (List.mem_of_mem_filter hx)
      obtain ⟨i, _, rfl⟩ := hx2
      rw [runFrom_step key resp cur (cur + 1 + 1 * i) st (by omega)]
    by_cases h : isFirstOfMonth cur
    · have h2 : dayOfMonth cur = 1 := by simpa [isFirstOfMonth] using h
      simp only [h, if_pos, h2, if_true]
      rw [List.map_cons, hself, List.map_congr_left hmap]
      rfl
    · have h2 : ¬ dayOfMonth cur = 1 := by simpa [isFirstOfMonth] using h
      simp only [h, h2, if_false]
      rw [List.map_congr_left hmap]
      rfl

/-! ### Settled claims -/

/-- Claim C1, counterexample.  On a one-day range whose response is ok,
non-empty and parses to an object without the per-device key, the script
still counts the day as processed (count 1), while the number of dates on
which the key was found in a successfully parsed response is 0: the
increment sits outside the key-lookup branch. -/
theorem claim1_processed_count_counterexample :
    (run keyU respNoKey 10 10).daysProcessed = 1 ∧
      ((rangeDates 10 10).filter (fun d => keyFound keyU (respNoKey d))).length = 0 := by
  decide

/-- Claim C1, amended.  The final processed-day count equals the number of
dates in the range whose response was ok, non-empty and successfully
parsed and whose accumulation raised no exception — whether or not the
per-device key was present in the parsed object. -/
theorem claim1_processed_count_amended (key : String) (resp : Nat → DayResp) (s e : Nat) :
    (run key resp s e).daysProcessed =
      ((rangeDates s e).filter (fun d => dayProcessed key (resp d))).length := by
  rw [run, runFrom_eq_foldDays, foldDays_daysProcessed]
  simp [initState]

/-- Claim C2.  For every sequence of integer-valued daily responses, the
final accumulator value of each tracked field equals the sum, over all
successfully parsed days and all reading records under the per-device key,
of that field's value, a missing field contributing zero. -/
theorem claim2_totals_invariant (key : String) (resp : Nat → DayResp) (s e : Nat)
    (g : String) (hg : g ∈ totalsFields)
    (hgood : ∀ d ∈ rangeDates s e, respReadingsOk key (resp d) = true) :
    (run key resp s e).totals g =
      ((rangeDates s e).map (fun d => dayContrib key g (resp d))).sum := by
  rw [run, runFrom_eq_foldDays, foldDays_totals_good key resp g hg _ _ hgood]
  simp [initState, initTotals]

/-- Witness for claim C2: a three-day range with two readings on each even
day and a transport error on the odd day accumulates 5 + 7 per good day
into the imported-energy field, totalling 24. -/
theorem claim2_totals_invariant_witness :
    fieldImp ∈ totalsFields ∧
      (∀ d ∈ rangeDates 10 12, respReadingsOk keyU (respW2 d) = true) ∧
      (run keyU respW2 10 12).totals fieldImp = 24 := by
  refine ⟨by decide, by decide, ?_⟩
  rw [claim2_totals_invariant keyU respW2 10 12 fieldImp (by decide) (by decide)]
  decide

/-- Claim C3.  The report divides the imported, exported and generated
watt-second totals by 3,600,000, formats to one decimal place, and
computes consumption as imported + generated - exported in watt-seconds
before the conversion; on the spec's single-day mocked reading the report
shows 1 processed day, Import 1.0, Export 0.0, Generation 0.0 and
Consumption 1.0 kWh. -/
theorem claim3_report_conversion :
    (∀ st : RunState, (report st).consKWh =
      fmt1 (((st.totals fieldImp + st.totals fieldGep - st.totals fieldExp : Int) : ℚ)
        / 3600000)) ∧
      report (run keyU c3resp d20250101 d20250101) = ⟨1, 1, 0, 0, 1⟩ := by
  refine ⟨fun st => rfl, ?_⟩
  have himp : (run keyU c3resp d20250101 d20250101).totals fieldImp = 3600000 := by decide
  have hexp : (run keyU c3resp d20250101 d20250101).totals fieldExp = 0 := by decide
  have hgep : (run keyU c3resp d20250101 d20250101).totals fieldGep = 0 := by decide
  have hdays : (run keyU c3resp d20250101 d20250101).daysProcessed = 1 := by decide
  simp only [report, himp, hexp, hgep, hdays]
  norm_num [fmt1, Report.mk.injEq]

/-- Claim C5.  With the start date strictly after the end date, the loop
body never executes: the processed-day count is zero, every field of the
accumulator is zero, and no output is produced. -/
theorem claim5_empty_range (key : String) (resp : Nat → DayResp) (s e : Nat) (h : e < s) :
    (run key resp s e).daysProcessed = 0 ∧ (∀ g, (run key resp s e).totals g = 0) ∧
      (run key resp s e).output = [] := by
  rw [run, runFrom_empty key resp s e initState h]
  exact ⟨rfl, fun g => rfl, rfl⟩

/-- Witness for claim C5 at start 7, end 3. -/
theorem claim5_empty_range_witness :
    (run keyU respW2 7 3).daysProcessed = 0 ∧ (run keyU respW2 7 3).totals fieldImp = 0 ∧
      (run keyU respW2 7 3).output = [] := by
  have T := claim5_empty_range keyU respW2 7 3 (by decide)
  exact ⟨T.1, T.2.1 fieldImp, T.2.2⟩

/-- Claim C9.  The progress lines a run prints are exactly one line per
date of the range whose day-of-month is 1, in order, each naming that
date's month and year and the cumulative processed-day count after that
date's own iteration; no other date produces a progress line. -/
theorem claim9_monthly_progress (key : String) (resp : Nat → DayResp) (s e : Nat) :
    ((run key resp s e).output).filter isProgress =
      ((rangeDates s e).filter isFirstOfMonth).map
        (fun d => OutEvent.progressLine (monthOf d) (yearOf d)
          ((runFrom key resp s d initState).daysProcessed)) := by
  rw [run, runFrom_eq_foldDays, foldDays_output_filter]
  rw [show (initState.output.filter isProgress) = [] from rfl, List.nil_append]
  exact expProg_eq_map key resp (e + 1 - s) s initState

/-- Claim C4.  For a date of the range on which the GET raises a transport
error: a diagnostic line naming that date is printed; the processed-day
count and every field of the accumulator are what they would be if that
date had returned no data at all; and the loop over all subsequent dates
behaves exactly as with the original responses. -/
theorem claim4_transport_error (key : String) (resp : Nat → DayResp) (s e d : Nat)
    (h1 : s ≤ d) (h2 : d ≤ e) (herr : resp d = DayResp.transportError) :
    OutEvent.errorLine d ∈ (run key resp s e).output ∧
      (run key resp s e).daysProcessed = (run key (maskDay resp d) s e).daysProcessed ∧
      (∀ g, (run key resp s e).totals g = (run key (maskDay resp d) s e).totals g) ∧
      (∀ st, runFrom key resp (d + 1) e st = runFrom key (maskDay resp d) (d + 1) e st) := by
  have hmask_ne : ∀ x, x ≠ d → maskDay resp d x = resp x := by
    intro x hx
    simp [maskDay, hx]
  have hmaskd : maskDay resp d d = DayResp.notOkOrEmpty := by simp [maskDay]
  have hsplit : rangeDates s e = List.range' s (d - s) ++ (d :: rangeDates (d + 1) e) := by
    rw [rangeDates_split s d e h1 h2, rangeDates_cons d e h2]
  have hrun1 : run key resp s e = foldDays key resp (rangeDates s e) initState :=
    runFrom_eq_foldDays key resp s e initState
  have hrun2 : run key (maskDay resp d) s e =
      foldDays key (maskDay resp d) (rangeDates s e) initState :=
    runFrom_eq_foldDays key (maskDay resp d) s e initState
  have hpre : foldDays key (maskDay resp d) (List.range' s (d - s)) initState =
      foldDays key resp (List.range' s (d - s)) initState := by
    apply foldDays_congr
    intro x hx
    obtain ⟨i, hi, rfl⟩ := List.mem_range'.mp hx
    exact hmask_ne _ (by omega)
  have hsuf : ∀ st, foldDays key (maskDay resp d) (rangeDates (d + 1) e) st =
      foldDays key resp (rangeDates (d + 1) e) st := by
    intro st
    apply foldDays_congr
    intro x hx
    have hb := (mem_rangeDates x (d + 1) e).mp hx
    exact hmask_ne x (by omega)
  have hmidT : (stepDay key resp d (foldDays key resp (List.range' s (d - s)) initState)).totals =
      (stepDay key (maskDay resp d) d
        (foldDays key resp (List.range' s (d - s)) initState)).totals := by
    funext g
    rw [stepDay_totals_fail key resp d _ (Or.inl herr) g,
      stepDay_totals_fail key (maskDay resp d) d _ (Or.inr (Or.inr hmaskd)) g]
  have hmidD : (stepDay key resp d
        (foldDays key resp (List.range' s (d - s)) initState)).daysProcessed =
      (stepDay key (maskDay resp d) d
        (foldDays key resp (List.range' s (d - s)) initState)).daysProcessed := by
    rw [stepDay_dp_fail key resp d _ (Or.inl herr),
      stepDay_dp_fail key (maskDay resp d) d _ (Or.inr (Or.inr hmaskd))]
  have hext := foldDays_state_ext key resp (rangeDates (d + 1) e)
    (stepDay key resp d (foldDays key resp (List.range' s (d - s)) initState))
    (stepDay key (maskDay resp d) d (foldDays key resp (List.range' s (d - s)) initState))
    hmidT hmidD
  refine ⟨?_, ?_, ?_, ?_⟩
  · rw [hrun1, hsplit, foldDays_append, foldDays_cons]
    exact foldDays_mem_output key resp _ _ _
      (stepDay_error_mem key resp d _ (Or.inl herr))
  · rw [hrun1, hrun2, hsplit, foldDays_append, foldDays_append, foldDays_cons, foldDays_cons,
      hpre, hsuf]
    exact hext.2
  · intro g
    rw [hrun1, hrun2, hsplit, foldDays_append, foldDays_append, foldDays_cons, foldDays_cons,
      hpre, hsuf]
    rw [hext.1]
  · intro st
    rw [runFrom_eq_foldDays, runFrom_eq_foldDays, hsuf]

/-- Witness for claim C4: a three-day range with a transport error on the
middle date. -/
theorem claim4_transport_error_witness :
    OutEvent.errorLine 11 ∈ (run keyU respW4 10 12).output ∧
      (run keyU respW4 10 12).daysProcessed =
        (run keyU (maskDay respW4 11) 10 12).daysProcessed ∧
      (run keyU respW4 10 12).totals fieldImp =
        (run keyU (maskDay respW4 11) 10 12).totals fieldImp ∧
      runFrom keyU respW4 12 12 initState = runFrom keyU (maskDay respW4 11) 12 12 initState := by
  have T := claim4_transport_error keyU respW4 10 12 11 (by decide) (by decide) (by decide)
  exact ⟨T.1, T.2.1, T.2.2.1 fieldImp, T.2.2.2 initState⟩

/-- Claim C6, counterexample.  A single-day run whose reading holds a
numeric imported-energy value followed by a non-numeric value of a later
tracked field is a failing day — the error line is printed and the day is
not counted — yet the accumulator after the iteration differs from its
value before the iteration began (7 instead of 0). -/
theorem claim6_failure_frame_counterexample :
    (run keyU respBad 10 10).totals fieldImp ≠ initState.totals fieldImp ∧
      OutEvent.errorLine 10 ∈ (run keyU respBad 10 10).output ∧
      (run keyU respBad 10 10).daysProcessed = initState.daysProcessed := by
  decide

/-- Claim C6, amended.  A transport-level or parse failure (where the
exception fires before any addition) leaves every field of the accumulator
exactly as it was before that date's iteration began; a failure raised
mid-accumulation keeps the additions already performed for that day but
still never subtracts or resets contributions of earlier days. -/
theorem claim6_failure_frame_amended (key : String) (resp : Nat → DayResp) (d : Nat)
    (st : RunState)
    (h : resp d = DayResp.transportError ∨ resp d = DayResp.malformed) :
    ∀ g, (stepDay key resp d st).totals g = st.totals g := by
  intro g
  rcases h with h | h
  · exact stepDay_totals_fail key resp d st (Or.inl h) g
  · exact stepDay_totals_fail key resp d st (Or.inr (Or.inl h)) g

/-- Witness for the amended claim C6 on an all-error response sequence. -/
theorem claim6_failure_frame_witness :
    (stepDay keyU respErrAll 3 initState).totals fieldImp = initState.totals fieldImp :=
  claim6_failure_frame_amended keyU respErrAll 3 initState (Or.inl rfl) fieldImp

/-- Claim C10.  When the accumulation over a day's readings raises partway
(the per-device key was found but a tracked field holds a non-numeric
value), the additions already performed remain in the accumulator, the day
is reported as an error, and it is not counted as processed. -/
theorem claim10_nonatomic_accumulation (key : String) (resp : Nat → DayResp) (d : Nat)
    (st : RunState) (data : List (String × List Reading)) (rs : List Reading) (t2 : Totals)
    (hresp : resp d = DayResp.parsed data) (hkey : lookupKey data key = some rs)
    (herr : addReadings st.totals rs = .error t2) :
    (stepDay key resp d st).totals = t2 ∧
      (stepDay key resp d st).daysProcessed = st.daysProcessed ∧
      OutEvent.errorLine d ∈ (stepDay key resp d st).output := by
  have hstep : stepDay key resp d st =
      { totals := t2, daysProcessed := st.daysProcessed,
        output := st.output ++
          (if dayOfMonth d = 1 then
            [OutEvent.errorLine d,
              OutEvent.progressLine (monthOf d) (yearOf d) st.daysProcessed]
           else [OutEvent.errorLine d]) } := by
    simp only [stepDay, hresp, tryDay, hkey, herr]
    by_cases hone : dayOfMonth d = 1 <;> simp [hone]
  rw [hstep]
  refine ⟨rfl, rfl, ?_⟩
  by_cases hone : dayOfMonth d = 1 <;> simp [hone]

/-- Witness for claim C10: the reading adds 9 to the generation total and
then raises on a non-numeric auxiliary field; the 9 stays, the day errors
and is not counted. -/
theorem claim10_nonatomic_accumulation_witness :
    (stepDay keyU respBad2 20 initState).totals =
        updateT initTotals fieldGep (initTotals fieldGep + 9) ∧
      (stepDay keyU respBad2 20 initState).daysProcessed = initState.daysProcessed ∧
      OutEvent.errorLine 20 ∈ (stepDay keyU respBad2 20 initState).output ∧
      updateT initTotals fieldGep (initTotals fieldGep + 9) fieldGep ≠ initState.totals fieldGep := by
  have T := claim10_nonatomic_accumulation keyU respBad2 20 initState
    [(keyU, [badRead2])] [badRead2] (updateT initTotals fieldGep (initTotals fieldGep + 9))
    rfl rfl rfl
  exact ⟨T.1, T.2.1, T.2.2, by decide⟩

/-- Claim C7.  When both credentials are supplied and the discovery
response carries the server-assignment header, the probe's printed output
is the body of the second, re-targeted status request, and exactly the
discovery URL and the re-targeted URL are requested, in that order. -/
theorem claim7_probe_retarget (env : String → Option String) (get : String → ProbeResp)
    (server : String) (hs : falsy (env serialVar) = false)
    (hk : falsy (env apiKeyVar) = false)
    (hhdr : lookupHeader (get discoveryUrl).headers asnHeader = some server) :
    (probeRun env get).1 = ProbeOutcome.printed (get (statusUrl server)).body ∧
      (probeRun env get).2 = [discoveryUrl, statusUrl server] := by
  simp [probeRun, hs, hk, hhdr]

/-- Witness for claim C7 on a concrete environment and network. -/
theorem claim7_probe_retarget_witness :
    (probeRun envBoth getW).1 = ProbeOutcome.printed bodyS5 ∧
      (probeRun envBoth getW).2 = [discoveryUrl, statusUrl serverS5] := by
  have T := claim7_probe_retarget envBoth getW serverS5 (by decide) (by decide) (by decide)
  exact ⟨T.1.trans (by decide), T.2⟩

/-- Claim C8, counterexample.  An environment variable that is present but
empty: both variables are present, yet the probe takes the
configuration-error exit (the check tests Python truthiness, not
presence). -/
theorem claim8_env_check_counterexample :
    (envEmptySerial serialVar).isSome = true ∧ (envEmptySerial apiKeyVar).isSome = true ∧
      (probeRun envEmptySerial getW).1 = ProbeOutcome.configError ∧
      (probeRun envEmptySerial getW).2 = [] := by
  decide

/-- Claim C8, amended.  The probe exits on the configuration-error path,
issuing no network request, exactly when either environment variable is
absent or empty; when both are present and non-empty it proceeds to the
network. -/
theorem claim8_env_check_amended (env : String → Option String) (get : String → ProbeResp) :
    ((probeRun env get).1 = ProbeOutcome.configError ↔
      (falsy (env serialVar) || falsy (env apiKeyVar)) = true) ∧
      ((probeRun env get).2 = [] ↔
        (falsy (env serialVar) || falsy (env apiKeyVar)) = true) := by
  by_cases h : (falsy (env serialVar) || falsy (env apiKeyVar)) = true
  · simp [probeRun, h]
  · cases hh : lookupHeader (get discoveryUrl).headers asnHeader with
    | none => simp [probeRun, h, hh]
    | some server => simp [probeRun, h, hh]

/-- Witness for the amended claim C8: with the API-key variable unset the
probe exits early with no requests. -/
theorem claim8_env_check_witness :
    (probeRun envNoKey getW).1 = ProbeOutcome.configError ∧
      (probeRun envNoKey getW).2 = [] := by
  have T := claim8_env_check_amended envNoKey getW
  exact ⟨T.1.mpr (by decide), T.2.mpr (by decide)⟩

end SolarHouse
